import Mathlib

/-!
# Parcel repository (`parcel.go`)

A shallow embedding of `ParcelStore` and of the part of `database/sql` it talks to.

* The relational table `parcel` is a list of rows in storage order together with the
  largest identifier the store has handed out so far.
* Every method of `ParcelStore` becomes a function from the table before the call to the
  values the method returns and the table after the call.
* Failures of the store (a statement that errors, a result whose `LastInsertId` or
  `RowsAffected` errors, a query that errors, a row that does not decode, a cursor that
  breaks) are not decided by the repository; they are supplied by a `Faults` value, one
  per call.
-/

namespace ParcelTracker

/-! ## Go errors -/

/-- Go `error` values as far as the repository builds and inspects them.
`ErrNoRows` is the sentinel `sql.ErrNoRows`; `driver` is any other error handed over by
`database/sql`; `errorf` is `fmt.Errorf` with a format without `%w`; `wrap` is `fmt.Errorf`
with a format ending in `: %w`, keeping the wrapped cause. -/
inductive GoError where
  | ErrNoRows : GoError
  | driver (msg : String) : GoError
  | errorf (msg : String) : GoError
  | wrap (msg : String) (cause : GoError) : GoError
  deriving DecidableEq, Repr

/-- The method `Unwrap` of an error: only errors built with `%w` have a cause. -/
def GoError.Unwrap : GoError → Option GoError
  | .wrap _ cause => some cause
  | _ => none

/-- The function `errors.Is(err, target)`: `err` or some error of its `Unwrap` chain is `target`. -/
def errorsIs : GoError → GoError → Bool
  | .wrap msg cause, target => (GoError.wrap msg cause == target) || errorsIs cause target
  | err, target => err == target

/-! ## Data model -/

/-- Modelled from the spec: the struct `Parcel` is declared outside `parcel.go`; its five
fields are the ones `parcel.go` scans into and the spec's data model lists. Go `int` is
taken as a 64-bit integer, so that `int(id)` of an `int64` is the identity. -/
structure Parcel where
  Number : Int
  Client : Int
  Status : String
  Address : String
  CreatedAt : String
  deriving DecidableEq, Repr

/-- Modelled from the spec: the constant `ParcelStatusRegistered` is declared outside
`parcel.go`; the spec and the error texts of `parcel.go` give its value as `registered`. -/
def ParcelStatusRegistered : String := "registered"

/-- The table `parcel`: its rows in storage order and the largest identifier assigned so far
(`number` is an auto-assigned primary key that is never reused). -/
structure Table where
  rows : List Parcel
  seq : Int
  deriving DecidableEq, Repr

/-- Primary key: no two rows share a `number`. -/
def Table.UniqueKeys (db : Table) : Prop :=
  (db.rows.map Parcel.Number).Nodup

/-- A table the store can be in: `number` is a primary key and every stored `number` was
assigned by the store, so it lies between 1 and the largest identifier assigned so far. -/
def Table.WF (db : Table) : Prop :=
  db.UniqueKeys ∧ 0 ≤ db.seq ∧ ∀ r ∈ db.rows, 1 ≤ r.Number ∧ r.Number ≤ db.seq

instance (db : Table) : Decidable db.UniqueKeys := by
  unfold Table.UniqueKeys; infer_instance

instance (db : Table) : Decidable db.WF := by
  unfold Table.WF; infer_instance

/-! ## The store -/

/-- What the store does wrong during one call of a repository method. `none` means the step
works. `exec`: `db.Exec` returns this error and the statement is not applied. `lastInsertId`,
`rowsAffected`: the method of `sql.Result` returns this error. `query`: `db.Query` (or the
query behind `db.QueryRow`) returns this error. `scan i`: decoding the row with index `i` of
the cursor returns this error. `cursor = some (k, e)`: the cursor breaks after delivering
`k` rows; from then on `rows.Next()` is false and `rows.Err()` is `e`. -/
structure Faults where
  exec : Option GoError
  lastInsertId : Option GoError
  rowsAffected : Option GoError
  query : Option GoError
  scan : Nat → Option GoError
  cursor : Option (Nat × GoError)

/-- A call during which the store does nothing wrong. -/
def noFaults : Faults :=
  ⟨none, none, none, none, fun _ => none, none⟩

/-- The reading steps of a call all work: the query, the cursor and every row decoding. -/
def Faults.ReadOk (f : Faults) : Prop :=
  f.query = none ∧ f.cursor = none ∧ ∀ i, f.scan i = none

/-- The four statements `parcel.go` passes to `db.Exec`, with their arguments. -/
inductive Stmt where
  /-- Statement `INSERT INTO parcel (client, status, address, created_at) VALUES (?, ?, ?, ?)` -/
  | insertParcel (client : Int) (status address createdAt : String) : Stmt
  /-- Statement `UPDATE parcel SET status = ? WHERE number = ?` -/
  | updateStatus (status : String) (number : Int) : Stmt
  /-- Statement `UPDATE parcel SET address = ? WHERE number = ? AND status = ?` -/
  | updateAddress (address : String) (number : Int) (status : String) : Stmt
  /-- Statement `DELETE FROM parcel WHERE number = ? AND status = ?` -/
  | deleteParcel (number : Int) (status : String) : Stmt

/-- The value `sql.Result` of a statement that ran. -/
structure SqlResult where
  lastInsertId : Int
  rowsAffected : Int
  deriving DecidableEq, Repr

/-- A statement that runs, on the table: the result and the table afterwards. An insert gets
the next identifier and goes to the end of the table. An update rewrites every row its
`WHERE` clause selects and counts those rows, also when the new value equals the old one
(the count SQLite reports, the driver of the tests). A delete removes the selected rows. -/
def Stmt.run : Stmt → Table → SqlResult × Table
  | .insertParcel client status address createdAt, db =>
    let id := db.seq + 1
    (⟨id, 1⟩, ⟨db.rows ++ [⟨id, client, status, address, createdAt⟩], id⟩)
  | .updateStatus status number, db =>
    (⟨db.seq, ((db.rows.filter (fun r => decide (r.Number = number))).length : Int)⟩,
     ⟨db.rows.map (fun r => if r.Number = number then { r with Status := status } else r),
      db.seq⟩)
  | .updateAddress address number status, db =>
    (⟨db.seq,
      ((db.rows.filter (fun r => decide (r.Number = number ∧ r.Status = status))).length : Int)⟩,
     ⟨db.rows.map (fun r =>
        if r.Number = number ∧ r.Status = status then { r with Address := address } else r),
      db.seq⟩)
  | .deleteParcel number status, db =>
    (⟨db.seq,
      ((db.rows.filter (fun r => decide (r.Number = number ∧ r.Status = status))).length : Int)⟩,
     ⟨db.rows.filter (fun r => !decide (r.Number = number ∧ r.Status = status)), db.seq⟩)

/-- The call `db.Exec(stmt, args...)`: an error and the table as it was, or the result of the
statement and the table it leaves (statements are atomic in the store). -/
def Exec (f : Faults) (db : Table) (stmt : Stmt) : Except GoError SqlResult × Table :=
  match f.exec with
  | some err => (.error err, db)
  | none => (.ok (stmt.run db).1, (stmt.run db).2)

/-- The call `result.LastInsertId()`. -/
def SqlResult.LastInsertId (f : Faults) (result : SqlResult) : Except GoError Int :=
  match f.lastInsertId with
  | some err => .error err
  | none => .ok result.lastInsertId

/-- The call `result.RowsAffected()`. -/
def SqlResult.RowsAffected (f : Faults) (result : SqlResult) : Except GoError Int :=
  match f.rowsAffected with
  | some err => .error err
  | none => .ok result.rowsAffected

/-- An open cursor `*sql.Rows`: the rows it still delivers and what `rows.Err()` reports once
`rows.Next()` has returned false. -/
structure Rows where
  pending : List Parcel
  err : Option GoError
  deriving DecidableEq, Repr

/-- The rows a `SELECT number, client, status, address, created_at FROM parcel WHERE ...`
selects, as a cursor: all of them in storage order, or the first `k` of them followed by the
error when the cursor breaks. -/
def openCursor (f : Faults) (selected : List Parcel) : Rows :=
  match f.cursor with
  | some (k, err) => ⟨selected.take k, some err⟩
  | none => ⟨selected, none⟩

/-- The call `db.Query("SELECT ... FROM parcel WHERE client = ?", client)`. -/
def Query (f : Faults) (db : Table) (client : Int) : Except GoError Rows :=
  match f.query with
  | some err => .error err
  | none => .ok (openCursor f (db.rows.filter (fun r => decide (r.Client = client))))

/-- The call `db.QueryRow("SELECT ... FROM parcel WHERE number = ?", number).Scan(...)`:
the error of the query; without a first row the error of the cursor or else
`sql.ErrNoRows`; otherwise the first row decoded, or its decoding error. -/
def QueryRowScan (f : Faults) (db : Table) (number : Int) : Except GoError Parcel :=
  match f.query with
  | some err => .error err
  | none =>
    match openCursor f (db.rows.filter (fun r => decide (r.Number = number))) with
    | ⟨[], some err⟩ => .error err
    | ⟨[], none⟩ => .error .ErrNoRows
    | ⟨r :: _, _⟩ =>
      match f.scan 0 with
      | some err => .error err
      | none => .ok r

/-! ## `ParcelStore` -/

/-- The zero value `Parcel{}`. -/
def Parcel.zero : Parcel := ⟨0, 0, "", "", ""⟩

/-- The method `ParcelStore.Add`. -/
def Add (f : Faults) (db : Table) (p : Parcel) : (Int × Option GoError) × Table :=
  match Exec f db (.insertParcel p.Client p.Status p.Address p.CreatedAt) with
  | (.error err, db1) => ((0, some (.wrap "ошибка создания посылки" err)), db1)
  | (.ok result, db1) =>
    match result.LastInsertId f with
    | .error err => ((0, some (.wrap "ошибка получения ID посылки" err)), db1)
    | .ok id => ((id, none), db1)

/-- The method `ParcelStore.Get`; it does not change the table. -/
def Get (f : Faults) (db : Table) (number : Int) : Parcel × Option GoError :=
  match QueryRowScan f db number with
  | .error err => (Parcel.zero, some (.wrap "ошибка получения посылки" err))
  | .ok parcel => (parcel, none)

/-- The variables of a running `GetByClient` that its deferred closure can see or that
outlive it: the local slice `parcels`, and the two result values, which are unnamed and are
set by the `return` statement before the deferred calls run. -/
structure Frame where
  parcels : List Parcel
  results : List Parcel × Option GoError
  deriving DecidableEq, Repr

/-- The loop `for rows.Next() { ... }` of `GetByClient` followed by `return parcels, nil`:
`i` is the index of the next row, `parcels` the slice built so far. A row that does not
decode leaves through `return nil, err`. -/
def scanLoop (f : Faults) : Nat → List Parcel → List Parcel → Frame
  | _, [], parcels => ⟨parcels, (parcels, none)⟩
  | i, r :: rest, parcels =>
    match f.scan i with
    | some err => ⟨parcels, ([], some (.wrap "ошибка сканирования посылки" err))⟩
    | none => scanLoop f (i + 1) rest (parcels ++ [r])

/-- The deferred closure of `GetByClient`: when `rows.Err()` is not nil it runs
`parcels, _ = nil, fmt.Errorf(...)`, which assigns the local slice and drops the error. -/
def deferredRowsErr (rows : Rows) (fr : Frame) : Frame :=
  match rows.err with
  | some _ => { fr with parcels := [] }
  | none => fr

/-- The method `ParcelStore.GetByClient`; it does not change the table. A nil slice and an
empty slice are both the empty list. -/
def GetByClient (f : Faults) (db : Table) (client : Int) : List Parcel × Option GoError :=
  match Query f db client with
  | .error err => ([], some (.wrap "ошибка получения посылок клиента" err))
  | .ok rows => (deferredRowsErr rows (scanLoop f 0 rows.pending [])).results

/-- The method `ParcelStore.SetStatus`. -/
def SetStatus (f : Faults) (db : Table) (number : Int) (status : String) :
    Option GoError × Table :=
  match Exec f db (.updateStatus status number) with
  | (.error err, db1) => (some (.wrap "ошибка обновления статуса посылки" err), db1)
  | (.ok _, db1) => (none, db1)

/-- The error `SetAddress` returns when the update touched no row. -/
def addressNotRegistered : GoError :=
  .errorf "изменить адрес можно только для посылок со статусом \x27registered\x27"

/-- The error `Delete` returns when the delete touched no row. -/
def deleteNotRegistered : GoError :=
  .errorf "удалить посылку можно только со статусом \x27registered\x27"

/-- The method `ParcelStore.SetAddress`. -/
def SetAddress (f : Faults) (db : Table) (number : Int) (address : String) :
    Option GoError × Table :=
  match Exec f db (.updateAddress address number ParcelStatusRegistered) with
  | (.error err, db1) => (some (.wrap "ошибка обновления адреса посылки" err), db1)
  | (.ok result, db1) =>
    match result.RowsAffected f with
    | .error err =>
      (some (.wrap "ошибка получения количества обновленных строк" err), db1)
    | .ok rowsAffected =>
      if rowsAffected = 0 then (some addressNotRegistered, db1) else (none, db1)

/-- The method `ParcelStore.Delete`. -/
def Delete (f : Faults) (db : Table) (number : Int) : Option GoError × Table :=
  match Exec f db (.deleteParcel number ParcelStatusRegistered) with
  | (.error err, db1) => (some (.wrap "ошибка удаления посылки" err), db1)
  | (.ok result, db1) =>
    match result.RowsAffected f with
    | .error err =>
      (some (.wrap "ошибка получения количества удаленных строк" err), db1)
    | .ok rowsAffected =>
      if rowsAffected = 0 then (some deleteNotRegistered, db1) else (none, db1)

/-- The error `Get` returns when no row has the number: `sql.ErrNoRows` wrapped by `Get`. -/
def getNotFound : GoError :=
  .wrap "ошибка получения посылки" .ErrNoRows

/-- No error the store hands over while one parcel is read is, or wraps, `sql.ErrNoRows`:
its failures are failures other than the absence of the row. -/
def Faults.NoRowsFree (g : Faults) : Prop :=
  (∀ e, g.query = some e → errorsIs e .ErrNoRows = false) ∧
  (∀ e, g.scan 0 = some e → errorsIs e .ErrNoRows = false) ∧
  (∀ k e, g.cursor = some (k, e) → errorsIs e .ErrNoRows = false)

/-! ## Sample data -/

/-- The parcel of `getTestParcel` with a fixed creation time. -/
def sampleParcel : Parcel := ⟨0, 1000, ParcelStatusRegistered, "test", "2024-01-01T00:00:00Z"⟩

/-- A table with a registered parcel 1 and a delivered parcel 2 of client 1000 and a
registered parcel 3 of client 7. -/
def sampleTable : Table :=
  ⟨[⟨1, 1000, "registered", "test", "2024-01-01T00:00:00Z"⟩,
    ⟨2, 1000, "delivered", "home", "2024-01-02T00:00:00Z"⟩,
    ⟨3, 7, "registered", "office", "2024-01-03T00:00:00Z"⟩], 3⟩

/-- A call during which the cursor breaks after one row with a lost connection. -/
def cursorDrop : Faults :=
  ⟨none, none, none, none, fun _ => none, some (1, .driver "connection lost")⟩

/-- A call during which the statement runs and `LastInsertId` fails. -/
def lastInsertIdFails : Faults :=
  ⟨none, some (.driver "LastInsertId is not supported"), none, none, fun _ => none, none⟩

/-- A call during which the statement runs and `RowsAffected` fails. -/
def rowsAffectedFails : Faults :=
  ⟨none, none, some (.driver "RowsAffected is not supported"), none, fun _ => none, none⟩

/-- Some stored parcel has number `n` and status `registered`. -/
def Table.holdsRegistered (db : Table) (n : Int) : Prop :=
  ∃ p ∈ db.rows, p.Number = n ∧ p.Status = ParcelStatusRegistered

instance (db : Table) (n : Int) : Decidable (db.holdsRegistered n) := by
  unfold Table.holdsRegistered; infer_instance

/-! ## Lists of rows -/

theorem filter_length_cast_eq_zero {α : Type} (l : List α) (c : α → Bool) :
    (((l.filter c).length : Int) = 0) ↔ ∀ x ∈ l, c x = false := by
  induction l with
  | nil => simp
  | cons x xs ih =>
    by_cases hx : c x = true
    · simp [List.filter_cons, hx]
      omega
    · simp only [Bool.not_eq_true] at hx
      simp [List.filter_cons, hx, ih]

theorem map_ite_eq_self {α : Type} (l : List α) (c : α → Prop) [DecidablePred c] (g : α → α)
    (h : ∀ x ∈ l, ¬ c x) : l.map (fun r => if c r then g r else r) = l := by
  induction l with
  | nil => rfl
  | cons x xs ih =>
    have hx : ¬ c x := h x (List.mem_cons_self x xs)
    have hxs : ∀ y ∈ xs, ¬ c y := fun y hy => h y (List.mem_cons_of_mem x hy)
    simp [hx, ih hxs]

theorem filter_eq_self_of_all {α : Type} (l : List α) (c : α → Bool)
    (h : ∀ x ∈ l, c x = true) : l.filter c = l := by
  induction l with
  | nil => rfl
  | cons x xs ih =>
    have hx : c x = true := h x (List.mem_cons_self x xs)
    have hxs : ∀ y ∈ xs, c y = true := fun y hy => h y (List.mem_cons_of_mem x hy)
    simp [List.filter_cons, hx, ih hxs]

/-! ## The store, step by step -/

theorem Exec_ok (f : Faults) (db : Table) (stmt : Stmt) (h : f.exec = none) :
    Exec f db stmt = (.ok (stmt.run db).1, (stmt.run db).2) := by
  simp [Exec, h]

theorem Exec_fault (f : Faults) (db : Table) (stmt : Stmt) (e : GoError) (h : f.exec = some e) :
    Exec f db stmt = (.error e, db) := by
  simp [Exec, h]

theorem not_holdsRegistered_iff (db : Table) (n : Int) :
    ¬ db.holdsRegistered n ↔
      ∀ r ∈ db.rows, decide (r.Number = n ∧ r.Status = ParcelStatusRegistered) = false := by
  unfold Table.holdsRegistered
  simp

/-- What `SetAddress` does when neither the statement nor `RowsAffected` fails. -/
theorem SetAddress_run (f : Faults) (db : Table) (n : Int) (a : String)
    (hexec : f.exec = none) (hrows : f.rowsAffected = none) :
    SetAddress f db n a =
      if db.holdsRegistered n then
        (none, ⟨db.rows.map (fun r =>
          if r.Number = n ∧ r.Status = ParcelStatusRegistered then { r with Address := a } else r),
          db.seq⟩)
      else (some addressNotRegistered, db) := by
  have hcount := filter_length_cast_eq_zero db.rows
    (fun r => decide (r.Number = n ∧ r.Status = ParcelStatusRegistered))
  by_cases hreg : db.holdsRegistered n
  · have hne : ¬ (((db.rows.filter
        (fun r => decide (r.Number = n ∧ r.Status = ParcelStatusRegistered))).length : Int) = 0) :=
      fun h0 => (not_holdsRegistered_iff db n).mpr (hcount.mp h0) hreg
    simp only [SetAddress, Exec_ok f db _ hexec, Stmt.run, SqlResult.RowsAffected, hrows,
      if_neg hne, if_pos hreg]
  · have h0 := hcount.mpr ((not_holdsRegistered_iff db n).mp hreg)
    have hsame := map_ite_eq_self db.rows
      (fun r => r.Number = n ∧ r.Status = ParcelStatusRegistered)
      (fun r => { r with Address := a })
      (fun r hr => by
        have := (not_holdsRegistered_iff db n).mp hreg r hr
        simpa using this)
    simp only [SetAddress, Exec_ok f db _ hexec, Stmt.run, SqlResult.RowsAffected, hrows,
      if_pos h0, if_neg hreg, hsame]

/-- What `Delete` does when neither the statement nor `RowsAffected` fails. -/
theorem Delete_run (f : Faults) (db : Table) (n : Int)
    (hexec : f.exec = none) (hrows : f.rowsAffected = none) :
    Delete f db n =
      if db.holdsRegistered n then
        (none, ⟨db.rows.filter
          (fun r => !decide (r.Number = n ∧ r.Status = ParcelStatusRegistered)), db.seq⟩)
      else (some deleteNotRegistered, db) := by
  have hcount := filter_length_cast_eq_zero db.rows
    (fun r => decide (r.Number = n ∧ r.Status = ParcelStatusRegistered))
  by_cases hreg : db.holdsRegistered n
  · have hne : ¬ (((db.rows.filter
        (fun r => decide (r.Number = n ∧ r.Status = ParcelStatusRegistered))).length : Int) = 0) :=
      fun h0 => (not_holdsRegistered_iff db n).mpr (hcount.mp h0) hreg
    simp only [Delete, Exec_ok f db _ hexec, Stmt.run, SqlResult.RowsAffected, hrows,
      if_neg hne, if_pos hreg]
  · have h0 := hcount.mpr ((not_holdsRegistered_iff db n).mp hreg)
    have hsame := filter_eq_self_of_all db.rows
      (fun r => !decide (r.Number = n ∧ r.Status = ParcelStatusRegistered))
      (fun r hr => by
        have := (not_holdsRegistered_iff db n).mp hreg r hr
        simp [this])
    simp only [Delete, Exec_ok f db _ hexec, Stmt.run, SqlResult.RowsAffected, hrows,
      if_pos h0, if_neg hreg, hsame]

/-- What `SetStatus` does when the statement does not fail. -/
theorem SetStatus_run (f : Faults) (db : Table) (n : Int) (s : String) (hexec : f.exec = none) :
    SetStatus f db n s =
      (none, ⟨db.rows.map (fun r => if r.Number = n then { r with Status := s } else r),
        db.seq⟩) := by
  simp only [SetStatus, Exec_ok f db _ hexec, Stmt.run]

theorem SetAddress_missing_fails (f : Faults) (db : Table) (n : Int) (a : String)
    (hreg : ¬ db.holdsRegistered n) : (SetAddress f db n a).1 ≠ none := by
  cases hexec : f.exec with
  | some e => simp [SetAddress, Exec_fault f db _ e hexec]
  | none =>
    cases hrows : f.rowsAffected with
    | some e => simp [SetAddress, Exec_ok f db _ hexec, SqlResult.RowsAffected, hrows]
    | none => simp [SetAddress_run f db n a hexec hrows, hreg]

theorem Delete_missing_fails (f : Faults) (db : Table) (n : Int)
    (hreg : ¬ db.holdsRegistered n) : (Delete f db n).1 ≠ none := by
  cases hexec : f.exec with
  | some e => simp [Delete, Exec_fault f db _ e hexec]
  | none =>
    cases hrows : f.rowsAffected with
    | some e => simp [Delete, Exec_ok f db _ hexec, SqlResult.RowsAffected, hrows]
    | none => simp [Delete_run f db n hexec hrows, hreg]

/-! ## Reading one parcel -/

theorem filter_key_eq_nil (l : List Parcel) (n : Int) (h : ∀ r ∈ l, r.Number ≠ n) :
    l.filter (fun r => decide (r.Number = n)) = [] := by
  rw [List.filter_eq_nil_iff]
  intro r hr
  simpa using h r hr

theorem filter_key_eq_singleton (l : List Parcel) (p : Parcel)
    (hnd : (l.map Parcel.Number).Nodup) (hp : p ∈ l) :
    l.filter (fun r => decide (r.Number = p.Number)) = [p] := by
  induction l with
  | nil => cases hp
  | cons x xs ih =>
    rw [List.map_cons, List.nodup_cons] at hnd
    rcases List.mem_cons.mp hp with hpx | hpxs
    · subst hpx
      have hrest : ∀ r ∈ xs, r.Number ≠ p.Number := by
        intro r hr heq
        exact hnd.1 (heq ▸ List.mem_map_of_mem Parcel.Number hr)
      simp [List.filter_cons, filter_key_eq_nil xs p.Number hrest]
    · have hne : x.Number ≠ p.Number := by
        intro heq
        exact hnd.1 (heq ▸ List.mem_map_of_mem Parcel.Number hpxs)
      simp [List.filter_cons, hne, ih hnd.2 hpxs]

/-- With unique keys, a stored parcel is the only stored parcel with its number. -/
theorem eq_of_number_eq (db : Table) (hkeys : db.UniqueKeys) (p q : Parcel)
    (hp : p ∈ db.rows) (hq : q ∈ db.rows) (h : p.Number = q.Number) : p = q := by
  have hq1 : q ∈ db.rows.filter (fun r => decide (r.Number = p.Number)) := by
    simp [List.mem_filter, hq, h]
  rw [filter_key_eq_singleton db.rows p hkeys hp] at hq1
  exact (List.mem_singleton.mp hq1).symm

/-- Reading a stored parcel by its number, when the store does not fail. -/
theorem Get_found (g : Faults) (db : Table) (p : Parcel) (hread : g.ReadOk)
    (hkeys : db.UniqueKeys) (hp : p ∈ db.rows) : Get g db p.Number = (p, none) := by
  obtain ⟨hq, hc, hs⟩ := hread
  simp only [Get, QueryRowScan, hq, openCursor, hc,
    filter_key_eq_singleton db.rows p hkeys hp, hs 0]

/-- Reading a number no stored parcel has, when the query and the cursor do not fail. -/
theorem Get_missing (g : Faults) (db : Table) (n : Int) (hq : g.query = none)
    (hc : g.cursor = none) (hmiss : ∀ r ∈ db.rows, r.Number ≠ n) :
    Get g db n = (Parcel.zero, some (.wrap "ошибка получения посылки" .ErrNoRows)) := by
  simp only [Get, QueryRowScan, hq, openCursor, hc, filter_key_eq_nil db.rows n hmiss]

/-- An update that keeps every `number` and rewrites only rows the number `m` does not
select leaves the rows selected by `m` as they were. -/
theorem filter_key_map_update (l : List Parcel) (c : Parcel → Prop) [DecidablePred c]
    (u : Parcel → Parcel) (m : Int) (hu : ∀ r, (u r).Number = r.Number)
    (hc : ∀ r, c r → r.Number ≠ m) :
    (l.map (fun r => if c r then u r else r)).filter (fun r => decide (r.Number = m)) =
      l.filter (fun r => decide (r.Number = m)) := by
  induction l with
  | nil => rfl
  | cons x xs ih =>
    by_cases hx : c x
    · have h1 : ¬ (u x).Number = m := by rw [hu x]; exact hc x hx
      have h2 : ¬ x.Number = m := hc x hx
      simp [List.filter_cons, hx, h1, h2, ih]
    · by_cases hm : x.Number = m
      · simp [List.filter_cons, hx, hm, ih]
      · simp [List.filter_cons, hx, hm, ih]

theorem map_number_map_update (l : List Parcel) (c : Parcel → Prop) [DecidablePred c]
    (u : Parcel → Parcel) (hu : ∀ r, (u r).Number = r.Number) :
    (l.map (fun r => if c r then u r else r)).map Parcel.Number = l.map Parcel.Number := by
  induction l with
  | nil => rfl
  | cons x xs ih =>
    by_cases hx : c x
    · simp [hx, hu x, ih]
    · simp [hx, ih]

/-- Reading by number depends on the table only through the rows with that number. -/
theorem Get_congr (g : Faults) (db db1 : Table) (m : Int)
    (h : db1.rows.filter (fun r => decide (r.Number = m)) =
      db.rows.filter (fun r => decide (r.Number = m))) :
    Get g db1 m = Get g db m := by
  simp only [Get, QueryRowScan, h]

/-! ## Gated mutations -/

/-- C1 as stated fails. On the sample table the update statement runs and `RowsAffected`
then fails. For the registered parcel 1, `SetAddress` returns the wrapped error of that step
and not nil, and the table is not the one before the call: the address of parcel 1 has
changed. For the delivered parcel 2 it returns the same wrapped error, which has a cause,
and not the error of the gate. So the statement not failing does not by itself give the
equivalence, nor the gate error in the other cases. -/
theorem SetAddress_rowsAffected_failure :
    rowsAffectedFails.exec = none ∧
    sampleTable.holdsRegistered 1 ∧
    (SetAddress rowsAffectedFails sampleTable 1 "new address").1 =
      some (.wrap "ошибка получения количества обновленных строк"
        (.driver "RowsAffected is not supported")) ∧
    (SetAddress rowsAffectedFails sampleTable 1 "new address").2 =
      ⟨[⟨1, 1000, "registered", "new address", "2024-01-01T00:00:00Z"⟩,
        ⟨2, 1000, "delivered", "home", "2024-01-02T00:00:00Z"⟩,
        ⟨3, 7, "registered", "office", "2024-01-03T00:00:00Z"⟩], 3⟩ ∧
    (SetAddress rowsAffectedFails sampleTable 1 "new address").2 ≠ sampleTable ∧
    ¬ sampleTable.holdsRegistered 2 ∧
    (SetAddress rowsAffectedFails sampleTable 2 "another").1 =
      some (.wrap "ошибка получения количества обновленных строк"
        (.driver "RowsAffected is not supported")) ∧
    (SetAddress rowsAffectedFails sampleTable 2 "another").1 ≠ some addressNotRegistered ∧
    ¬ ∀ (f : Faults) (db : Table) (n : Int) (a : String), f.exec = none →
      ((SetAddress f db n a).1 = none ↔ db.holdsRegistered n) := by
  refine ⟨rfl, by decide, by decide, by decide, by decide, by decide, by decide, by decide, ?_⟩
  intro h
  have h1 := (h rowsAffectedFails sampleTable 1 "new address" rfl).mpr (by decide)
  revert h1
  decide

/-- C1 amended (address gate). When neither the update statement nor the reading of its row
count (`RowsAffected`) fails, `SetAddress n a` returns nil exactly when the table holds a
parcel with number `n` and status `registered`. In every other case it returns the error of
the gate, which wraps no other error, and the table is the one before the call, so that
reading parcel `n` gives what it gave before. -/
theorem SetAddress_gate (f : Faults) (db : Table) (n : Int) (a : String)
    (hexec : f.exec = none) (hrows : f.rowsAffected = none) :
    ((SetAddress f db n a).1 = none ↔ db.holdsRegistered n) ∧
    (¬ db.holdsRegistered n →
      (SetAddress f db n a).1 = some addressNotRegistered ∧
      addressNotRegistered.Unwrap = none ∧
      (SetAddress f db n a).2 = db ∧
      ∀ g : Faults, Get g (SetAddress f db n a).2 n = Get g db n) := by
  rw [SetAddress_run f db n a hexec hrows]
  by_cases hreg : db.holdsRegistered n
  · simp [hreg]
  · simp [hreg, addressNotRegistered, GoError.Unwrap]

/-- Witness for C1 amended on the sample table: parcel 1 is registered and its address changes,
parcel 2 is delivered and the call is refused. -/
theorem SetAddress_gate_witness :
    noFaults.exec = none ∧ noFaults.rowsAffected = none ∧
    ¬ sampleTable.holdsRegistered 2 ∧
    (SetAddress noFaults sampleTable 1 "new address").1 = none ∧
    (SetAddress noFaults sampleTable 2 "another").1 = some addressNotRegistered ∧
    (SetAddress noFaults sampleTable 2 "another").2 = sampleTable :=
  ⟨rfl, rfl, by decide,
   (SetAddress_gate noFaults sampleTable 1 "new address" rfl rfl).1.mpr (by decide),
   ((SetAddress_gate noFaults sampleTable 2 "another" rfl rfl).2 (by decide)).1,
   ((SetAddress_gate noFaults sampleTable 2 "another" rfl rfl).2 (by decide)).2.2.1⟩

/-- C2 as stated fails. On the sample table the delete statement runs and `RowsAffected`
then fails. For the registered parcel 3, `Delete` returns the wrapped error of that step and
not nil, and the table is not the one before the call: the row of parcel 3 is gone. For the
delivered parcel 2 it returns the same wrapped error, which has a cause, and not the error
of the gate. So the statement not failing does not by itself give the equivalence, nor the
gate error in the other cases. -/
theorem Delete_rowsAffected_failure :
    rowsAffectedFails.exec = none ∧
    sampleTable.holdsRegistered 3 ∧
    (Delete rowsAffectedFails sampleTable 3).1 =
      some (.wrap "ошибка получения количества удаленных строк"
        (.driver "RowsAffected is not supported")) ∧
    (Delete rowsAffectedFails sampleTable 3).2 =
      ⟨[⟨1, 1000, "registered", "test", "2024-01-01T00:00:00Z"⟩,
        ⟨2, 1000, "delivered", "home", "2024-01-02T00:00:00Z"⟩], 3⟩ ∧
    (Delete rowsAffectedFails sampleTable 3).2 ≠ sampleTable ∧
    ¬ sampleTable.holdsRegistered 2 ∧
    (Delete rowsAffectedFails sampleTable 2).1 =
      some (.wrap "ошибка получения количества удаленных строк"
        (.driver "RowsAffected is not supported")) ∧
    (Delete rowsAffectedFails sampleTable 2).1 ≠ some deleteNotRegistered ∧
    ¬ ∀ (f : Faults) (db : Table) (n : Int), f.exec = none →
      ((Delete f db n).1 = none ↔ db.holdsRegistered n) := by
  refine ⟨rfl, by decide, by decide, by decide, by decide, by decide, by decide, by decide, ?_⟩
  intro h
  have h1 := (h rowsAffectedFails sampleTable 3 rfl).mpr (by decide)
  revert h1
  decide

/-- C2 amended (delete gate). When neither the delete statement nor the reading of its row
count (`RowsAffected`) fails, `Delete n` returns nil exactly when the table holds a parcel
with number `n` and status `registered`. In every other case it returns the error of the
gate, which wraps no other error, and the table is the one before the call, so that every
stored parcel, those with number `n` included, is still stored. -/
theorem Delete_gate (f : Faults) (db : Table) (n : Int)
    (hexec : f.exec = none) (hrows : f.rowsAffected = none) :
    ((Delete f db n).1 = none ↔ db.holdsRegistered n) ∧
    (¬ db.holdsRegistered n →
      (Delete f db n).1 = some deleteNotRegistered ∧
      deleteNotRegistered.Unwrap = none ∧
      (Delete f db n).2 = db ∧
      ∀ p ∈ db.rows, p.Number = n → p ∈ (Delete f db n).2.rows) := by
  rw [Delete_run f db n hexec hrows]
  by_cases hreg : db.holdsRegistered n
  · simp [hreg]
  · simp [hreg, deleteNotRegistered, GoError.Unwrap]
    exact fun p hp _ => hp

/-- Witness for C2 amended on the sample table: parcel 1 is registered and is deleted, parcel 2 is
delivered and stays. -/
theorem Delete_gate_witness :
    noFaults.exec = none ∧ noFaults.rowsAffected = none ∧
    ¬ sampleTable.holdsRegistered 2 ∧
    (Delete noFaults sampleTable 1).1 = none ∧
    (Delete noFaults sampleTable 2).1 = some deleteNotRegistered ∧
    (Delete noFaults sampleTable 2).2 = sampleTable :=
  ⟨rfl, rfl, by decide,
   (Delete_gate noFaults sampleTable 1 rfl rfl).1.mpr (by decide),
   ((Delete_gate noFaults sampleTable 2 rfl rfl).2 (by decide)).1,
   ((Delete_gate noFaults sampleTable 2 rfl rfl).2 (by decide)).2.2.1⟩

/-- C10 (asymmetry on a missing parcel). When no stored parcel has number `n` and the update
statement does not fail, `SetStatus n s` returns nil and leaves the table as it was, whereas
`SetAddress n a` and `Delete n` on the same table return an error, whatever the store does
during those two calls. -/
theorem SetStatus_missing_asymmetry (f fa fd : Faults) (db : Table) (n : Int) (s a : String)
    (hmiss : ∀ p ∈ db.rows, p.Number ≠ n) (hexec : f.exec = none) :
    SetStatus f db n s = (none, db) ∧
    (SetAddress fa db n a).1 ≠ none ∧
    (Delete fd db n).1 ≠ none := by
  have hreg : ¬ db.holdsRegistered n := by
    rintro ⟨p, hp, hn, -⟩
    exact hmiss p hp hn
  refine ⟨?_, SetAddress_missing_fails fa db n a hreg, Delete_missing_fails fd db n hreg⟩
  rw [SetStatus_run f db n s hexec]
  have hsame := map_ite_eq_self db.rows (fun r => r.Number = n)
    (fun r => { r with Status := s }) hmiss
  simp only [hsame]

/-- Witness for C10 on the sample table, which has no parcel 9. -/
theorem SetStatus_missing_asymmetry_witness :
    (∀ p ∈ sampleTable.rows, p.Number ≠ 9) ∧ noFaults.exec = none ∧
    SetStatus noFaults sampleTable 9 "sent" = (none, sampleTable) ∧
    (SetAddress noFaults sampleTable 9 "x").1 ≠ none ∧
    (Delete noFaults sampleTable 9).1 ≠ none :=
  ⟨by decide, rfl,
   SetStatus_missing_asymmetry noFaults noFaults noFaults sampleTable 9 "sent" "x"
     (by decide) rfl⟩

/-! ## Successful calls -/

theorem SetAddress_ok_inv (f : Faults) (db : Table) (n : Int) (a : String)
    (h : (SetAddress f db n a).1 = none) :
    f.exec = none ∧ f.rowsAffected = none ∧ db.holdsRegistered n := by
  have hreg : db.holdsRegistered n := by
    by_contra hno
    exact SetAddress_missing_fails f db n a hno h
  cases hexec : f.exec with
  | some e => simp [SetAddress, Exec_fault f db _ e hexec] at h
  | none =>
    cases hrows : f.rowsAffected with
    | some e => simp [SetAddress, Exec_ok f db _ hexec, SqlResult.RowsAffected, hrows] at h
    | none => exact ⟨rfl, rfl, hreg⟩

theorem Delete_ok_inv (f : Faults) (db : Table) (n : Int) (h : (Delete f db n).1 = none) :
    f.exec = none ∧ f.rowsAffected = none ∧ db.holdsRegistered n := by
  have hreg : db.holdsRegistered n := by
    by_contra hno
    exact Delete_missing_fails f db n hno h
  cases hexec : f.exec with
  | some e => simp [Delete, Exec_fault f db _ e hexec] at h
  | none =>
    cases hrows : f.rowsAffected with
    | some e => simp [Delete, Exec_ok f db _ hexec, SqlResult.RowsAffected, hrows] at h
    | none => exact ⟨rfl, rfl, hreg⟩

theorem SetStatus_ok_inv (f : Faults) (db : Table) (n : Int) (s : String)
    (h : (SetStatus f db n s).1 = none) : f.exec = none := by
  cases hexec : f.exec with
  | some e => simp [SetStatus, Exec_fault f db _ e hexec] at h
  | none => rfl

/-- What `Add` does, by the step that fails. -/
theorem Add_run (f : Faults) (db : Table) (p : Parcel) :
    Add f db p =
      match f.exec, f.lastInsertId with
      | some e, _ => ((0, some (.wrap "ошибка создания посылки" e)), db)
      | none, some e =>
        ((0, some (.wrap "ошибка получения ID посылки" e)),
         ⟨db.rows ++ [⟨db.seq + 1, p.Client, p.Status, p.Address, p.CreatedAt⟩], db.seq + 1⟩)
      | none, none =>
        ((db.seq + 1, none),
         ⟨db.rows ++ [⟨db.seq + 1, p.Client, p.Status, p.Address, p.CreatedAt⟩], db.seq + 1⟩) := by
  cases hexec : f.exec with
  | some e => simp [Add, Exec_fault f db _ e hexec]
  | none =>
    cases hid : f.lastInsertId with
    | some e => simp [Add, Exec_ok f db _ hexec, SqlResult.LastInsertId, hid, Stmt.run]
    | none => simp [Add, Exec_ok f db _ hexec, SqlResult.LastInsertId, hid, Stmt.run]

/-- An insert into a well-formed table keeps the keys unique. -/
theorem insert_UniqueKeys (db : Table) (hwf : db.WF) (r : Parcel) (hr : r.Number = db.seq + 1) :
    (Table.mk (db.rows ++ [r]) (db.seq + 1)).UniqueKeys := by
  obtain ⟨hkeys, -, hbound⟩ := hwf
  unfold Table.UniqueKeys at *
  simp only [List.map_append, List.map_cons, List.map_nil]
  rw [List.nodup_append]
  refine ⟨hkeys, List.nodup_singleton _, ?_⟩
  intro k hk hk1
  rw [List.mem_singleton] at hk1
  obtain ⟨q, hq, hqk⟩ := List.mem_map.mp hk
  have := (hbound q hq).2
  omega

/-- The error of a failed one-row read is `sql.ErrNoRows` or an error the store handed over. -/
theorem QueryRowScan_error (g : Faults) (db : Table) (m : Int) (c : GoError)
    (h : QueryRowScan g db m = .error c) :
    c = .ErrNoRows ∨ g.query = some c ∨ g.scan 0 = some c ∨ ∃ k, g.cursor = some (k, c) := by
  unfold QueryRowScan at h
  cases hq : g.query with
  | some e =>
    simp only [hq] at h
    cases h
    exact Or.inr (Or.inl rfl)
  | none =>
    simp only [hq] at h
    cases hc : g.cursor with
    | none =>
      simp only [openCursor, hc] at h
      split at h
      · rename_i heq
        have := congrArg Rows.err heq
        simp at this
      · cases h; exact Or.inl rfl
      · cases hs : g.scan 0 with
        | some e =>
          simp only [hs] at h
          cases h
          exact Or.inr (Or.inr (Or.inl rfl))
        | none => simp [hs] at h
    | some ke =>
      obtain ⟨k, e⟩ := ke
      simp only [openCursor, hc] at h
      split at h
      · rename_i e1 heq
        cases h
        have : e = c := by
          have := congrArg Rows.err heq
          simpa using this
        exact Or.inr (Or.inr (Or.inr ⟨k, by rw [this]⟩))
      · rename_i heq
        have := congrArg Rows.err heq
        simp at this
      · cases hs : g.scan 0 with
        | some e1 =>
          simp only [hs] at h
          cases h
          exact Or.inr (Or.inr (Or.inl rfl))
        | none => simp [hs] at h

/-- A failed `Get` whose error is not the not-found error does not wrap `sql.ErrNoRows`. -/
theorem Get_other_failure (g : Faults) (db : Table) (m : Int) (err : GoError)
    (hfree : g.NoRowsFree) (herr : (Get g db m).2 = some err) (hne : err ≠ getNotFound) :
    errorsIs err .ErrNoRows = false := by
  unfold Get at herr
  cases hres : QueryRowScan g db m with
  | ok r => simp [hres] at herr
  | error c =>
    simp only [hres, Option.some.injEq] at herr
    subst herr
    have hc : errorsIs c .ErrNoRows = false := by
      rcases QueryRowScan_error g db m c hres with h | h | h | ⟨k, h⟩
      · subst h; exact absurd rfl hne
      · exact hfree.1 c h
      · exact hfree.2.1 c h
      · exact hfree.2.2 k c h
    simp [errorsIs, hc]

/-! ## Well-formed tables stay well-formed -/

theorem mem_map_update_number (l : List Parcel) (c : Parcel → Prop) [DecidablePred c]
    (u : Parcel → Parcel) (hu : ∀ r, (u r).Number = r.Number) (q : Parcel)
    (hq : q ∈ l.map (fun r => if c r then u r else r)) : ∃ r ∈ l, r.Number = q.Number := by
  obtain ⟨r, hr, hrq⟩ := List.mem_map.mp hq
  refine ⟨r, hr, ?_⟩
  by_cases hc : c r
  · rw [if_pos hc] at hrq
    rw [← hrq, hu r]
  · rw [if_neg hc] at hrq
    rw [hrq]

theorem update_WF (db : Table) (c : Parcel → Prop) [DecidablePred c] (u : Parcel → Parcel)
    (hu : ∀ r, (u r).Number = r.Number) (hwf : db.WF) :
    (Table.mk (db.rows.map (fun r => if c r then u r else r)) db.seq).WF := by
  obtain ⟨hkeys, hseq, hbound⟩ := hwf
  refine ⟨?_, hseq, ?_⟩
  · unfold Table.UniqueKeys at *
    simp only
    rw [map_number_map_update db.rows c u hu]
    exact hkeys
  · intro q hq
    obtain ⟨r, hr, hrq⟩ := mem_map_update_number db.rows c u hu q hq
    rw [← hrq]
    exact hbound r hr

/-- Every statement of the repository takes a well-formed table to a well-formed table. -/
theorem Stmt.run_WF (stmt : Stmt) (db : Table) (hwf : db.WF) : (stmt.run db).2.WF := by
  cases stmt with
  | insertParcel client status address createdAt =>
    refine ⟨insert_UniqueKeys db hwf _ rfl, ?_, ?_⟩
    · have := hwf.2.1
      simp only [Stmt.run]
      omega
    · intro r hr
      simp only [Stmt.run, List.mem_append, List.mem_singleton] at hr ⊢
      have hseq := hwf.2.1
      rcases hr with hr | hr
      · have := hwf.2.2 r hr
        omega
      · subst hr
        simp only
        omega
  | updateStatus status number =>
    exact update_WF db (fun r => r.Number = number) (fun r => { r with Status := status })
      (fun _ => rfl) hwf
  | updateAddress address number status =>
    exact update_WF db (fun r => r.Number = number ∧ r.Status = status)
      (fun r => { r with Address := address }) (fun _ => rfl) hwf
  | deleteParcel number status =>
    obtain ⟨hkeys, hseq, hbound⟩ := hwf
    refine ⟨?_, hseq, ?_⟩
    · unfold Table.UniqueKeys at *
      exact hkeys.sublist ((List.filter_sublist db.rows).map Parcel.Number)
    · intro r hr
      exact hbound r (List.mem_of_mem_filter hr)

theorem Exec_WF (f : Faults) (db : Table) (stmt : Stmt) (hwf : db.WF) :
    (Exec f db stmt).2.WF := by
  cases hexec : f.exec with
  | some e => rw [Exec_fault f db stmt e hexec]; exact hwf
  | none => rw [Exec_ok f db stmt hexec]; exact Stmt.run_WF stmt db hwf

/-- The table after `Add` is the table after its statement. -/
theorem Add_table (f : Faults) (db : Table) (p : Parcel) :
    (Add f db p).2 = (Exec f db (.insertParcel p.Client p.Status p.Address p.CreatedAt)).2 := by
  unfold Add
  split
  · rename_i h; rw [h]
  · rename_i h; rw [h]; split <;> rfl

/-- The table after `SetStatus` is the table after its statement. -/
theorem SetStatus_table (f : Faults) (db : Table) (n : Int) (s : String) :
    (SetStatus f db n s).2 = (Exec f db (.updateStatus s n)).2 := by
  unfold SetStatus
  split <;> (rename_i h; rw [h])

/-- The table after `SetAddress` is the table after its statement. -/
theorem SetAddress_table (f : Faults) (db : Table) (n : Int) (a : String) :
    (SetAddress f db n a).2 = (Exec f db (.updateAddress a n ParcelStatusRegistered)).2 := by
  unfold SetAddress
  split
  · rename_i h; rw [h]
  · rename_i h; rw [h]; split
    · rfl
    · split <;> rfl

/-- The table after `Delete` is the table after its statement. -/
theorem Delete_table (f : Faults) (db : Table) (n : Int) :
    (Delete f db n).2 = (Exec f db (.deleteParcel n ParcelStatusRegistered)).2 := by
  unfold Delete
  split
  · rename_i h; rw [h]
  · rename_i h; rw [h]; split
    · rfl
    · split <;> rfl

/-- Invariant: the four mutating methods keep the table well-formed, whatever the store does
during the call. The empty table with no identifier assigned is well-formed, so every table
the repository reaches from it is. -/
theorem ParcelStore_WF (f : Faults) (db : Table) (p : Parcel) (n : Int) (s a : String)
    (hwf : db.WF) :
    (Table.mk [] 0).WF ∧ (Add f db p).2.WF ∧ (SetStatus f db n s).2.WF ∧
    (SetAddress f db n a).2.WF ∧ (Delete f db n).2.WF := by
  refine ⟨by decide, ?_, ?_, ?_, ?_⟩
  · rw [Add_table]; exact Exec_WF f db _ hwf
  · rw [SetStatus_table]; exact Exec_WF f db _ hwf
  · rw [SetAddress_table]; exact Exec_WF f db _ hwf
  · rw [Delete_table]; exact Exec_WF f db _ hwf

/-! ## Round trip, finality, status, frame -/

/-- C3 (Add/Get round trip). On a well-formed table, if `Add p` returns `(n, nil)` then `n`
is not zero and `Get n` on the table after the call, read without a store failure, returns
nil error and the parcel with number `n` and the client, status, address and creation time
of `p`, whatever `p.Number` was. -/
theorem Add_Get_roundtrip (f g : Faults) (db : Table) (p : Parcel) (n : Int)
    (hwf : db.WF) (hadd : (Add f db p).1 = (n, none)) (hread : g.ReadOk) :
    n ≠ 0 ∧
    Get g (Add f db p).2 n = (⟨n, p.Client, p.Status, p.Address, p.CreatedAt⟩, none) := by
  rw [Add_run] at hadd ⊢
  cases hexec : f.exec with
  | some e => simp [hexec] at hadd
  | none =>
    cases hid : f.lastInsertId with
    | some e => simp [hexec, hid] at hadd
    | none =>
      simp only [hexec, hid, Prod.mk.injEq, and_true] at hadd ⊢
      subst hadd
      have hseq : 0 ≤ db.seq := hwf.2.1
      refine ⟨by omega, ?_⟩
      exact Get_found g _ ⟨db.seq + 1, p.Client, p.Status, p.Address, p.CreatedAt⟩ hread
        (insert_UniqueKeys db hwf _ rfl) (by simp)

/-- Witness for C3: the test parcel added to the sample table gets number 4 and is read
back. -/
theorem Add_Get_roundtrip_witness :
    sampleTable.WF ∧ (Add noFaults sampleTable sampleParcel).1 = (4, none) ∧ noFaults.ReadOk ∧
    (4 : Int) ≠ 0 ∧
    Get noFaults (Add noFaults sampleTable sampleParcel).2 4 =
      (⟨4, 1000, "registered", "test", "2024-01-01T00:00:00Z"⟩, none) :=
  ⟨by decide, by decide, ⟨rfl, rfl, fun _ => rfl⟩,
   Add_Get_roundtrip noFaults noFaults sampleTable sampleParcel 4 (by decide) (by decide)
     ⟨rfl, rfl, fun _ => rfl⟩⟩

/-- C4 (deletion finality). On a table with unique keys, if `Delete n` returns nil then
`Get n` on the table after the call, with a query and a cursor that do not fail, returns the
zero parcel and the not-found error, for which `errors.Is(err, sql.ErrNoRows)` holds; and
`errors.Is(err, sql.ErrNoRows)` fails for every other error a `Get` returns, as long as the
store's own errors are not `sql.ErrNoRows`. -/
theorem Delete_then_Get_not_found (f g : Faults) (db : Table) (n : Int)
    (hkeys : db.UniqueKeys) (hdel : (Delete f db n).1 = none)
    (hq : g.query = none) (hc : g.cursor = none) :
    Get g (Delete f db n).2 n = (Parcel.zero, some getNotFound) ∧
    errorsIs getNotFound .ErrNoRows = true ∧
    ∀ (g1 : Faults) (db1 : Table) (m : Int) (err : GoError), g1.NoRowsFree →
      (Get g1 db1 m).2 = some err → err ≠ getNotFound → errorsIs err .ErrNoRows = false := by
  obtain ⟨hexec, hrows, p, hp, hpn, hps⟩ := Delete_ok_inv f db n hdel
  refine ⟨?_, by decide, fun g1 db1 m err => Get_other_failure g1 db1 m err⟩
  rw [Delete_run f db n hexec hrows, if_pos ⟨p, hp, hpn, hps⟩]
  apply Get_missing g _ n hq hc
  intro r hr hrn
  simp only [List.mem_filter, Bool.not_eq_true', decide_eq_false_iff_not] at hr
  have hrp : r = p := eq_of_number_eq db hkeys r p hr.1 hp (hrn.trans hpn.symm)
  exact hr.2 ⟨hrn, hrp ▸ hps⟩

/-- Witness for C4: parcel 1 of the sample table is deleted and is not found afterwards. -/
theorem Delete_then_Get_not_found_witness :
    sampleTable.UniqueKeys ∧ (Delete noFaults sampleTable 1).1 = none ∧
    Get noFaults (Delete noFaults sampleTable 1).2 1 = (Parcel.zero, some getNotFound) :=
  ⟨by decide, by decide,
   (Delete_then_Get_not_found noFaults noFaults sampleTable 1 (by decide) (by decide)
     rfl rfl).1⟩

/-- C6 (status is unconditional). On a table with unique keys that holds a parcel `p` with
number `n`, whatever the status of `p` and whatever the string `s`, when the update statement
does not fail `SetStatus n s` returns nil, and `Get n` on the table after the call, read
without a store failure, returns `p` with status `s` and nil error. -/
theorem SetStatus_unconditional (f g : Faults) (db : Table) (n : Int) (s : String) (p : Parcel)
    (hkeys : db.UniqueKeys) (hp : p ∈ db.rows) (hn : p.Number = n)
    (hexec : f.exec = none) (hread : g.ReadOk) :
    (SetStatus f db n s).1 = none ∧
    Get g (SetStatus f db n s).2 n = ({ p with Status := s }, none) := by
  rw [SetStatus_run f db n s hexec]
  refine ⟨rfl, ?_⟩
  have hkeys1 : (Table.mk (db.rows.map
      (fun r => if r.Number = n then { r with Status := s } else r)) db.seq).UniqueKeys := by
    unfold Table.UniqueKeys at *
    simp only
    rw [map_number_map_update db.rows (fun r => r.Number = n)
      (fun r => { r with Status := s }) (fun _ => rfl)]
    exact hkeys
  have hmem : ({ p with Status := s } : Parcel) ∈ (Table.mk (db.rows.map
      (fun r => if r.Number = n then { r with Status := s } else r)) db.seq).rows := by
    simp only [List.mem_map]
    exact ⟨p, hp, by simp [hn]⟩
  have := Get_found g _ _ hread hkeys1 hmem
  simpa [hn] using this

/-- Witness for C6: the delivered parcel 2 of the sample table is set back to registered,
and the registered parcel 1 is set to sent. -/
theorem SetStatus_unconditional_witness :
    sampleTable.UniqueKeys ∧ noFaults.exec = none ∧ noFaults.ReadOk ∧
    Get noFaults (SetStatus noFaults sampleTable 2 "registered").2 2 =
      (⟨2, 1000, "registered", "home", "2024-01-02T00:00:00Z"⟩, none) ∧
    Get noFaults (SetStatus noFaults sampleTable 1 "sent").2 1 =
      (⟨1, 1000, "sent", "test", "2024-01-01T00:00:00Z"⟩, none) :=
  ⟨by decide, rfl, ⟨rfl, rfl, fun _ => rfl⟩,
   (SetStatus_unconditional noFaults noFaults sampleTable 2 "registered"
     ⟨2, 1000, "delivered", "home", "2024-01-02T00:00:00Z"⟩ (by decide) (by decide) rfl rfl
     ⟨rfl, rfl, fun _ => rfl⟩).2,
   (SetStatus_unconditional noFaults noFaults sampleTable 1 "sent"
     ⟨1, 1000, "registered", "test", "2024-01-01T00:00:00Z"⟩ (by decide) (by decide) rfl rfl
     ⟨rfl, rfl, fun _ => rfl⟩).2⟩

/-- Reading parcel `n` after an update of the rows with number `n` that keeps their number. -/
theorem Get_after_update (g : Faults) (db : Table) (n : Int) (u : Parcel → Parcel) (p : Parcel)
    (hu : ∀ r, (u r).Number = r.Number) (hread : g.ReadOk) (hkeys : db.UniqueKeys)
    (hp : p ∈ db.rows) (hn : p.Number = n) :
    Get g ⟨db.rows.map (fun r => if r.Number = n then u r else r), db.seq⟩ n =
      (u p, none) := by
  have hkeys1 : (Table.mk (db.rows.map
      (fun r => if r.Number = n then u r else r)) db.seq).UniqueKeys := by
    unfold Table.UniqueKeys at *
    simp only
    rw [map_number_map_update db.rows (fun r => r.Number = n) u hu]
    exact hkeys
  have hmem : u p ∈ (Table.mk (db.rows.map
      (fun r => if r.Number = n then u r else r)) db.seq).rows := by
    simp only [List.mem_map]
    exact ⟨p, hp, by simp [hn]⟩
  have := Get_found g _ _ hread hkeys1 hmem
  rw [hu p, hn] at this
  exact this

/-- Reading a parcel other than `n` after an update of the rows with number `n`. -/
theorem Get_other_after_update (g : Faults) (db : Table) (n m : Int) (u : Parcel → Parcel)
    (hu : ∀ r, (u r).Number = r.Number) (hm : m ≠ n) :
    Get g ⟨db.rows.map (fun r => if r.Number = n then u r else r), db.seq⟩ m = Get g db m := by
  apply Get_congr
  exact filter_key_map_update db.rows (fun r => r.Number = n) u m hu
    (fun r hr => by rw [hr]; exact fun h => hm h.symm)

/-- C7 (effect and frame). On a table with unique keys: if `SetAddress n a` returns nil,
then the table after the call is the table before it with the address of the parcel
numbered `n` replaced by `a`, so `Get n` returns the parcel stored under `n` with address
`a` and its other four fields as stored, and reading any other number gives what it gave
before. Likewise, if `SetStatus n s` returns nil, the table after the call is the table
before it with the status of the parcel numbered `n` replaced by `s`, and reading any other
number gives what it gave before. -/
theorem SetAddress_SetStatus_frame (f fs g : Faults) (db : Table) (n : Int) (a s : String)
    (hkeys : db.UniqueKeys) (hread : g.ReadOk) :
    ((SetAddress f db n a).1 = none →
      (∃ p ∈ db.rows, p.Number = n ∧
        Get g (SetAddress f db n a).2 n = ({ p with Address := a }, none)) ∧
      (SetAddress f db n a).2 =
        ⟨db.rows.map (fun r => if r.Number = n then { r with Address := a } else r), db.seq⟩ ∧
      ∀ (g1 : Faults) (m : Int), m ≠ n → Get g1 (SetAddress f db n a).2 m = Get g1 db m) ∧
    ((SetStatus fs db n s).1 = none →
      (∀ p ∈ db.rows, p.Number = n →
        Get g (SetStatus fs db n s).2 n = ({ p with Status := s }, none)) ∧
      (SetStatus fs db n s).2 =
        ⟨db.rows.map (fun r => if r.Number = n then { r with Status := s } else r), db.seq⟩ ∧
      ∀ (g1 : Faults) (m : Int), m ≠ n → Get g1 (SetStatus fs db n s).2 m = Get g1 db m) := by
  constructor
  · intro hset
    obtain ⟨hexec, hrows, p, hp, hpn, hps⟩ := SetAddress_ok_inv f db n a hset
    have htable : (SetAddress f db n a).2 =
        ⟨db.rows.map (fun r => if r.Number = n then { r with Address := a } else r),
          db.seq⟩ := by
      rw [SetAddress_run f db n a hexec hrows, if_pos ⟨p, hp, hpn, hps⟩]
      simp only [Table.mk.injEq, and_true]
      apply List.map_congr_left
      intro r hr
      by_cases hrn : r.Number = n
      · have hrp : r = p := eq_of_number_eq db hkeys r p hr hp (hrn.trans hpn.symm)
        have hrs : r.Status = ParcelStatusRegistered := hrp ▸ hps
        simp [hrn, hrs]
      · simp [hrn]
    rw [htable]
    exact ⟨⟨p, hp, hpn,
        Get_after_update g db n (fun r => { r with Address := a }) p (fun _ => rfl) hread hkeys
          hp hpn⟩,
      rfl,
      fun g1 m hm =>
        Get_other_after_update g1 db n m (fun r => { r with Address := a }) (fun _ => rfl) hm⟩
  · intro hset
    rw [SetStatus_run fs db n s (SetStatus_ok_inv fs db n s hset)]
    exact ⟨fun p hp hpn =>
        Get_after_update g db n (fun r => { r with Status := s }) p (fun _ => rfl) hread hkeys
          hp hpn,
      rfl,
      fun g1 m hm =>
        Get_other_after_update g1 db n m (fun r => { r with Status := s }) (fun _ => rfl) hm⟩

/-- Witness for C7 on the sample table: the address of parcel 1 changes and parcel 2 reads
as before; the status of parcel 2 changes and parcel 3 reads as before. -/
theorem SetAddress_SetStatus_frame_witness :
    sampleTable.UniqueKeys ∧ noFaults.ReadOk ∧
    (SetAddress noFaults sampleTable 1 "new test address").1 = none ∧
    (SetStatus noFaults sampleTable 2 "sent").1 = none ∧
    (SetAddress noFaults sampleTable 1 "new test address").2 =
      ⟨sampleTable.rows.map
        (fun r => if r.Number = 1 then { r with Address := "new test address" } else r),
        sampleTable.seq⟩ ∧
    Get noFaults (SetStatus noFaults sampleTable 2 "sent").2 3 = Get noFaults sampleTable 3 :=
  ⟨by decide, ⟨rfl, rfl, fun _ => rfl⟩, by decide, by decide,
   ((SetAddress_SetStatus_frame noFaults noFaults noFaults sampleTable 1 "new test address" "sent"
     (by decide) ⟨rfl, rfl, fun _ => rfl⟩).1 (by decide)).2.1,
   ((SetAddress_SetStatus_frame noFaults noFaults noFaults sampleTable 2 "x" "sent"
     (by decide) ⟨rfl, rfl, fun _ => rfl⟩).2 (by decide)).2.2 noFaults 3 (by decide)⟩

/-! ## Reading the parcels of a client -/

/-- The loop of `GetByClient` when every row decodes: all rows of the cursor are appended. -/
theorem scanLoop_decoded (f : Faults) (hscan : ∀ i, f.scan i = none) (l : List Parcel) :
    ∀ (i : Nat) (acc : List Parcel), scanLoop f i l acc = ⟨acc ++ l, (acc ++ l, none)⟩ := by
  induction l with
  | nil => intro i acc; simp [scanLoop]
  | cons x xs ih => intro i acc; simp [scanLoop, hscan i, ih]

theorem deferredRowsErr_results (rows : Rows) (fr : Frame) :
    (deferredRowsErr rows fr).results = fr.results := by
  unfold deferredRowsErr
  cases rows.err <;> rfl

/-- What `GetByClient` returns when the query succeeds and every row decodes: the rows the
cursor delivered and a nil error, whether or not the cursor reports an error at the end. -/
theorem GetByClient_decoded (f : Faults) (db : Table) (c : Int)
    (hq : f.query = none) (hscan : ∀ i, f.scan i = none) :
    GetByClient f db c =
      ((openCursor f (db.rows.filter (fun r => decide (r.Client = c)))).pending, none) := by
  simp only [GetByClient, Query, hq, deferredRowsErr_results, scanLoop_decoded f hscan,
    List.nil_append]

/-- What `GetByClient` returns when the store does not fail. -/
theorem GetByClient_run (f : Faults) (db : Table) (c : Int) (hread : f.ReadOk) :
    GetByClient f db c = (db.rows.filter (fun r => decide (r.Client = c)), none) := by
  rw [GetByClient_decoded f db c hread.1 hread.2.2]
  simp only [openCursor, hread.2.1]

/-- C5 as stated fails. On the sample table, which stores parcels 1 and 2 of client 1000,
the query succeeds and every row decodes, and the cursor breaks after the first row.
`GetByClient 1000` returns nil error and a sequence of length 1 against 2 stored parcels of
the client; the stored parcel 2 is not in it. So the query and the row decoding not failing
do not by themselves give the whole set. -/
theorem GetByClient_truncated_by_cursor :
    cursorDrop.query = none ∧ (∀ i, cursorDrop.scan i = none) ∧
    (GetByClient cursorDrop sampleTable 1000).2 = none ∧
    (GetByClient cursorDrop sampleTable 1000).1.length = 1 ∧
    sampleTable.rows.countP (fun r => decide (r.Client = 1000)) = 2 ∧
    (⟨2, 1000, "delivered", "home", "2024-01-02T00:00:00Z"⟩ : Parcel) ∈ sampleTable.rows ∧
    (⟨2, 1000, "delivered", "home", "2024-01-02T00:00:00Z"⟩ : Parcel) ∉
      (GetByClient cursorDrop sampleTable 1000).1 ∧
    ¬ ∀ (f : Faults) (db : Table) (c : Int), f.query = none → (∀ i, f.scan i = none) →
      (GetByClient f db c).2 = none ∧
      (GetByClient f db c).1.length = db.rows.countP (fun r => decide (r.Client = c)) := by
  refine ⟨rfl, fun _ => rfl, by decide, by decide, by decide, by decide, by decide, ?_⟩
  intro h
  have h1 := (h cursorDrop sampleTable 1000 rfl (fun _ => rfl)).2
  revert h1
  decide

/-- C5 amended (client grouping). When the query and the row decoding do not fail and the
cursor reports no failure, `GetByClient c` returns nil error and a sequence in which every
parcel of client `c` occurs as often as it is stored and every element is a stored parcel of
client `c`; its length is the number of stored parcels of client `c`; with unique keys each
stored parcel of client `c` is the one element with its number; and when no parcel matches,
the result is the empty sequence with nil error. -/
theorem GetByClient_grouping (f : Faults) (db : Table) (c : Int) (hread : f.ReadOk) :
    (GetByClient f db c).2 = none ∧
    (∀ q : Parcel, q.Client = c → (GetByClient f db c).1.count q = db.rows.count q) ∧
    (∀ q ∈ (GetByClient f db c).1, q ∈ db.rows ∧ q.Client = c) ∧
    (GetByClient f db c).1.length = db.rows.countP (fun r => decide (r.Client = c)) ∧
    (db.UniqueKeys → ∀ q ∈ db.rows, q.Client = c →
      (GetByClient f db c).1.filter (fun r => decide (r.Number = q.Number)) = [q]) ∧
    ((∀ r ∈ db.rows, r.Client ≠ c) → GetByClient f db c = ([], none)) := by
  rw [GetByClient_run f db c hread]
  refine ⟨rfl, ?_, ?_, ?_, ?_, ?_⟩
  · intro q hq
    exact List.count_filter (by simpa using hq)
  · intro q hq
    simpa [List.mem_filter] using hq
  · exact (List.countP_eq_length_filter _ _).symm
  · intro hkeys q hq hqc
    simp only [List.filter_filter]
    have h1 := filter_key_eq_singleton db.rows q hkeys hq
    have h2 : db.rows.filter (fun r => decide (r.Number = q.Number) && decide (r.Client = c)) =
        (db.rows.filter (fun r => decide (r.Number = q.Number))).filter
          (fun r => decide (r.Client = c)) := by
      rw [List.filter_filter]
      congr 1
      funext r
      exact Bool.and_comm _ _
    rw [h2, h1]
    simp [List.filter_cons, hqc]
  · intro hnone
    have : db.rows.filter (fun r => decide (r.Client = c)) = [] := by
      rw [List.filter_eq_nil_iff]
      intro r hr
      simpa using hnone r hr
    rw [this]

/-- Witness for C5 amended on the sample table: client 1000 has parcels 1 and 2, client 5 has none. -/
theorem GetByClient_grouping_witness :
    noFaults.ReadOk ∧
    (GetByClient noFaults sampleTable 1000).2 = none ∧
    (GetByClient noFaults sampleTable 1000).1.length = 2 ∧
    GetByClient noFaults sampleTable 5 = ([], none) :=
  ⟨⟨rfl, rfl, fun _ => rfl⟩,
   (GetByClient_grouping noFaults sampleTable 1000 ⟨rfl, rfl, fun _ => rfl⟩).1,
   (GetByClient_grouping noFaults sampleTable 1000 ⟨rfl, rfl, fun _ => rfl⟩).2.2.2.1,
   (GetByClient_grouping noFaults sampleTable 5 ⟨rfl, rfl, fun _ => rfl⟩).2.2.2.2.2
     (by decide)⟩

/-- Whenever the query succeeds, every row decodes and the cursor reports an error at the
end, `GetByClient` returns the rows delivered so far with a nil error. -/
theorem GetByClient_cursor_error (f : Faults) (db : Table) (c : Int) (k : Nat) (e : GoError)
    (hq : f.query = none) (hscan : ∀ i, f.scan i = none) (hc : f.cursor = some (k, e)) :
    GetByClient f db c = ((db.rows.filter (fun r => decide (r.Client = c))).take k, none) := by
  rw [GetByClient_decoded f db c hq hscan]
  simp only [openCursor, hc]

/-- C8 (cursor failure after iteration), evaluated where it fails. On the sample table the
query for client 1000 opens a cursor that delivers parcel 1 and then reports a lost
connection, so `rows.Next()` is false and `rows.Err()` is not nil; `GetByClient` returns the
one parcel read so far and a nil error. -/
theorem GetByClient_cursor_error_swallowed :
    Query cursorDrop sampleTable 1000 =
      .ok ⟨[⟨1, 1000, "registered", "test", "2024-01-01T00:00:00Z"⟩],
        some (.driver "connection lost")⟩ ∧
    GetByClient noFaults sampleTable 1000 =
      ([⟨1, 1000, "registered", "test", "2024-01-01T00:00:00Z"⟩,
        ⟨2, 1000, "delivered", "home", "2024-01-02T00:00:00Z"⟩], none) ∧
    GetByClient cursorDrop sampleTable 1000 =
      ([⟨1, 1000, "registered", "test", "2024-01-01T00:00:00Z"⟩], none) :=
  ⟨rfl, by decide, by decide⟩

/-! ## Failure of `Add` -/

/-- C9 as stated fails. On the empty table, with the insert applied and `LastInsertId`
failing, `Add` returns the number 0 and an error, and the table is not what it was before the
call: it holds the row for the parcel under number 1. So it is not the case that every
failing `Add` leaves the table as it was. -/
theorem Add_error_leaves_row :
    (Add lastInsertIdFails ⟨[], 0⟩ sampleParcel).1 =
      (0, some (.wrap "ошибка получения ID посылки" (.driver "LastInsertId is not supported"))) ∧
    (Add lastInsertIdFails ⟨[], 0⟩ sampleParcel).2 =
      ⟨[⟨1, 1000, "registered", "test", "2024-01-01T00:00:00Z"⟩], 1⟩ ∧
    (Add lastInsertIdFails ⟨[], 0⟩ sampleParcel).2 ≠ ⟨[], 0⟩ ∧
    ¬ ∀ (f : Faults) (db : Table) (p : Parcel),
      (Add f db p).1.2 ≠ none → (Add f db p).1.1 = 0 ∧ (Add f db p).2 = db := by
  refine ⟨by decide, by decide, by decide, ?_⟩
  intro h
  have h1 := (h lastInsertIdFails ⟨[], 0⟩ sampleParcel (by decide)).2
  revert h1
  decide

/-- C9 amended. Whenever `Add p` returns an error, the returned number is 0. If the insert
statement failed, the table is the one before the call. Otherwise `LastInsertId` failed
after the insert, and the table is the one before the call with the row for `p` appended
under the next identifier. -/
theorem Add_failure (f : Faults) (db : Table) (p : Parcel) (herr : (Add f db p).1.2 ≠ none) :
    (Add f db p).1.1 = 0 ∧
    (f.exec ≠ none → (Add f db p).2 = db) ∧
    (f.exec = none →
      f.lastInsertId ≠ none ∧
      (Add f db p).2 =
        ⟨db.rows ++ [⟨db.seq + 1, p.Client, p.Status, p.Address, p.CreatedAt⟩],
          db.seq + 1⟩) := by
  rw [Add_run] at herr ⊢
  cases hexec : f.exec with
  | some e => simp
  | none =>
    cases hid : f.lastInsertId with
    | some e => simp
    | none => simp [hexec, hid] at herr

/-- Witness for C9 amended: on the empty table, with `LastInsertId` failing, `Add` returns 0
and the row is stored under number 1. -/
theorem Add_failure_witness :
    (Add lastInsertIdFails ⟨[], 0⟩ sampleParcel).1.2 ≠ none ∧
    (Add lastInsertIdFails ⟨[], 0⟩ sampleParcel).1.1 = 0 ∧
    (Add lastInsertIdFails ⟨[], 0⟩ sampleParcel).2 =
      ⟨[⟨1, 1000, "registered", "test", "2024-01-01T00:00:00Z"⟩], 1⟩ :=
  ⟨by decide,
   (Add_failure lastInsertIdFails ⟨[], 0⟩ sampleParcel (by decide)).1,
   ((Add_failure lastInsertIdFails ⟨[], 0⟩ sampleParcel (by decide)).2.2 rfl).2⟩

end ParcelTracker
